import Mathlib

/-!
Verification development for the open-webui-pipelines gateway
(`main.py`, `pipelines_list.py`, `pipelines/math_add.py`).

The embedding models JSON values, Python dict semantics (unique keys,
overwrite on reassignment, first-match lookup), the API-key dependencies,
the pipeline discovery scan `_discover_pipelines`, and the two HTTP
routes `_pipelines_list` and `_pipelines_call`.

Numeric JSON values are modelled as rationals; Python `float` conversion
is the identity on this model.  Python booleans pass
`isinstance(x, (int, float))` because `bool` is a subtype of `int` in
Python, which the model reflects in `pyIsNumber`.
-/

namespace OWP

/-- JSON values, as produced by parsing a request body or returned by a
handler.  Mirrors the Python value universe the gateway passes around. -/
inductive JValue where
  | null : JValue
  | bool (b : Bool) : JValue
  | num (q : ℚ) : JValue
  | str (s : String) : JValue
  | arr (elems : List JValue) : JValue
  | obj (fields : List (String × JValue)) : JValue

/-- A JSON object body: the Python dict FastAPI passes as `payload`. -/
abbrev JObj := List (String × JValue)

/-- `body.get(k)`: first matching key, as in a Python dict (keys unique). -/
def jobjGet (o : JObj) (k : String) : Option JValue :=
  match o with
  | [] => none
  | (k', v) :: rest => if k' = k then some v else jobjGet rest k

/-- Outcome of calling a handler: a returned value or a raised exception
carrying `str(e)`. -/
inductive HandlerOutcome where
  | ok (v : JValue) : HandlerOutcome
  | exn (msg : String) : HandlerOutcome

/-- One registry entry, as stored by `_discover_pipelines`:
`{"module": mod_name, "file": fpath, "callable": pipe_fn}`. -/
structure PipelineEntry where
  module : String
  file : String
  callable : JObj → HandlerOutcome

/-- `_PIPELINES_REGISTRY`: a Python dict from id to entry, modelled as an
association list with unique keys. -/
abbrev Registry := List (String × PipelineEntry)

/-- Python dict lookup `d.get(k)`: first match. -/
def dictGet {α : Type} (d : List (String × α)) (k : String) : Option α :=
  match d with
  | [] => none
  | (k', v) :: rest => if k' = k then some v else dictGet rest k

/-- Python dict assignment `d[k] = v`: overwrite in place if the key is
present (keeping its position), else append. -/
def dictInsert {α : Type} (k : String) (v : α) (d : List (String × α)) :
    List (String × α) :=
  match d with
  | [] => [(k, v)]
  | (k', v') :: rest =>
      if k' = k then (k, v) :: rest else (k', v') :: dictInsert k v rest

/-- The keys of a dict, in insertion order. -/
def dictKeys {α : Type} (d : List (String × α)) : List String :=
  d.map Prod.fst

/-- `API_KEY = os.getenv("API_KEY", "changeme")` at the top of `main.py`,
read once at module load; `env` is the value of the `API_KEY` environment
variable (`none` when unset). -/
def API_KEY (env : Option String) : String :=
  env.getD "changeme"

/-- `api_dependency` in `main.py`: the inner `_dep` rejects with
`401 Unauthorized` when the `x-api-key` header is missing, empty (Python
falsy) or different from the configured secret, and accepts otherwise. -/
def api_dependency (secret : String) (hdr : Option String) :
    Except (Nat × String) Unit :=
  match hdr with
  | none => .error (401, "Unauthorized")
  | some k =>
      if k = "" ∨ k ≠ secret then .error (401, "Unauthorized") else .ok ()

/-- `require_api_key` in `pipelines_list.py`: reads
`os.getenv("API_KEY", "")` on each request and rejects when that value is
empty or the `x-api-key` header differs from it (a missing header is never
equal to a string, as in Python). -/
def require_api_key (env : Option String) (hdr : Option String) :
    Except (Nat × String) Unit :=
  let cfg := env.getD ""
  if cfg = "" ∨ hdr ≠ some cfg then .error (401, "Unauthorized") else .ok ()

/-- An HTTP response produced by the gateway: a `JSONResponse` with a
status and content, or a raised `HTTPException` rendered as a status and a
detail message. -/
inductive GwResponse where
  | json (status : Nat) (content : JValue) : GwResponse
  | httpError (status : Nat) (detail : String) : GwResponse

/-- `sorted(list(_PIPELINES_REGISTRY.keys()))` in `_pipelines_list`. -/
def sortedKeys (reg : Registry) : List String :=
  List.insertionSort (· ≤ ·) (dictKeys reg)

/-- The `GET /pipelines` handler `_pipelines_list` in `main.py`. -/
def _pipelines_list (reg : Registry) : GwResponse :=
  .json 200 (.obj [("pipelines", .arr ((sortedKeys reg).map JValue.str))])

/-- The `POST /pipelines/{name}` handler `_pipelines_call` in `main.py`.
Also returns the ids of the handlers it invoked, so that "no handler is
invoked" is an expressible observation. -/
def _pipelines_call (reg : Registry) (name : String) (payload : Option JObj) :
    GwResponse × List String :=
  let body := payload.getD []
  match dictGet reg name with
  | none =>
      (.httpError 404 ("pipeline \x27" ++ name ++ "\x27 not found"), [])
  | some entry =>
      match entry.callable body with
      | .ok result =>
          match result with
          | .obj fields => (.json 200 (.obj fields), [name])
          | _ => (.json 200 (.obj [("result", result)]), [name])
      | .exn msg => (.httpError 500 msg, [name])

/-- A request to one of the two guarded pipeline routes. -/
inductive Request where
  | list : Request
  | call (name : String) (payload : Option JObj) : Request

/-- One request handled by the gateway: FastAPI runs the `api_dependency`
check first, then the route handler.  Returns the response, the registry
afterwards (these handlers never assign to `_PIPELINES_REGISTRY`) and the
ids of the handlers invoked. -/
def gatewayStep (secret : String) (reg : Registry) (hdr : Option String)
    (r : Request) : GwResponse × Registry × List String :=
  match api_dependency secret hdr with
  | .error e => (.httpError e.1 e.2, reg, [])
  | .ok _ =>
      match r with
      | .list => (_pipelines_list reg, reg, [])
      | .call name payload =>
          let out := _pipelines_call reg name payload
          (out.1, reg, out.2)

/-- What loading one source file in `_discover_pipelines` can do,
abstracting `spec_from_file_location` (`badSpec`: no spec or loader),
`exec_module` / `Pipeline()` / attribute access raising (`raises`),
`getattr(mod, "Pipeline", None)` returning `None` (`noPipelineClass`),
`pipe` missing or not callable (`noCallablePipe`), and the successful case
with its `id` / `name` attributes and `pipe` callable. -/
inductive UnitBehavior where
  | badSpec : UnitBehavior
  | raises (msg : String) : UnitBehavior
  | noPipelineClass : UnitBehavior
  | noCallablePipe : UnitBehavior
  | valid (idAttr nameAttr : Option String) (pipe : JObj → HandlerOutcome) :
      UnitBehavior

/-- One directory entry seen by `os.listdir`, with what loading it does. -/
structure UnitFile where
  fname : String
  behavior : UnitBehavior

/-- Python `fname.endswith(".py")`, at character level. -/
def strEndsWith (s suff : String) : Bool :=
  List.isSuffixOf suff.data s.data

/-- Python `fname[:-n]`: drop the last `n` characters. -/
def strDropRight (s : String) (n : Nat) : String :=
  String.mk (s.data.take (s.data.length - n))

/-- Python `a or b` on an optional string attribute: `None` and `""` are
falsy, anything else is returned unchanged. -/
def pyOrStr (a : Option String) (b : String) : String :=
  match a with
  | some s => if s = "" then b else s
  | none => b

/-- `pid = getattr(obj, "id", None) or getattr(obj, "name", None) or
fname[:-3]` in `_discover_pipelines`. -/
def derivedId (idAttr nameAttr : Option String) (base : String) : String :=
  pyOrStr idAttr (pyOrStr nameAttr base)

/-- The registry binding one file contributes, if any: files whose name
does not end in `.py` are skipped by the suffix filter, and only a `valid`
load reaches the `_PIPELINES_REGISTRY[str(pid)] = {...}` assignment. -/
def unitEntry (baseDir : String) (u : UnitFile) :
    Option (String × PipelineEntry) :=
  if strEndsWith u.fname ".py" then
    match u.behavior with
    | .valid idAttr nameAttr pipe =>
        some (derivedId idAttr nameAttr (strDropRight u.fname 3),
          ⟨"pipelines." ++ strDropRight u.fname 3,
            baseDir ++ "/" ++ u.fname, pipe⟩)
    | _ => none
  else none

/-- The warning `_discover_pipelines` logs for one file: only a raised
exception is logged (`logger.warning("Skipping pipeline %s due to load
error: %s", fpath, e)`); every other skip is silent. -/
def loadErrorLog (baseDir : String) (u : UnitFile) : Option String :=
  if strEndsWith u.fname ".py" then
    match u.behavior with
    | .raises msg =>
        some ("Skipping pipeline " ++ (baseDir ++ "/" ++ u.fname) ++
          " due to load error: " ++ msg)
    | _ => none
  else none

/-- The effect of one loop iteration of `_discover_pipelines` on the
registry. -/
def unitStep (baseDir : String) (d : Registry) (u : UnitFile) : Registry :=
  match unitEntry baseDir u with
  | some ke => dictInsert ke.1 ke.2 d
  | none => d

/-- `_discover_pipelines(base_dir)` in `main.py`: clears the registry,
checks `base_dir and os.path.isdir(base_dir)` (modelled by `dirOk`), then
processes each `os.listdir` entry in order, accumulating the registry and
the warning log. -/
def _discover_pipelines (baseDir : String) (dirOk : Bool)
    (units : List UnitFile) : Registry × List String :=
  if dirOk then
    units.foldl (fun acc u =>
      (unitStep baseDir acc.1 u, acc.2 ++ (loadErrorLog baseDir u).toList))
      ([], [])
  else ([], ["PIPELINES_DIR not present or not a directory: " ++ baseDir])

/-- The successive registry states a reader of `_PIPELINES_REGISTRY` could
observe during `_discover_pipelines`: the pre-scan registry, then the
cleared registry (`.clear()` runs before anything else, including the
directory check), then the state after each processed file.  The dict is
mutated in place, so each of these states is the shared global at some
moment of the scan. -/
def scanStates (baseDir : String) (pre : Registry) (dirOk : Bool)
    (units : List UnitFile) : List Registry :=
  if dirOk then pre :: units.scanl (unitStep baseDir) []
  else [pre, []]

/-- `isinstance(x, (int, float))` on a JSON-decoded Python value: numbers
pass, and so do booleans, because `bool` is a subtype of `int` in
Python. -/
def pyIsNumber : JValue → Bool
  | .num _ => true
  | .bool _ => true
  | _ => false

/-- Numeric value of an element accepted by `pyIsNumber` (Python sums
`True` as 1 and `False` as 0). -/
def pyNumVal : JValue → ℚ
  | .num q => q
  | .bool b => if b then 1 else 0
  | _ => 0

/-- `float(sum(values))`: a left fold from 0; `float` is the identity on
this exact-number model. -/
def pySum (xs : List JValue) : ℚ :=
  xs.foldl (fun a x => a + pyNumVal x) 0

/-- `Pipeline.pipe` of `pipelines/math_add.py`: `body.get("values", [])`,
the `isinstance` list-of-numbers check, then `{"sum": float(sum(values))}`
or the structured error mapping. -/
def math_add_pipe (body : JObj) : JValue :=
  let values := (jobjGet body "values").getD (.arr [])
  match values with
  | .arr xs =>
      if xs.all pyIsNumber then .obj [("sum", .num (pySum xs))]
      else .obj [("error", .str "body.values must be a list of numbers")]
  | _ => .obj [("error", .str "body.values must be a list of numbers")]

/-- The shipped `math_add.py` unit: declares `id = "math_add"` and
`name = "math_add"`, and its `pipe` never raises. -/
def mathAddUnit : UnitFile :=
  ⟨"math_add.py", .valid (some "math_add") (some "math_add")
    (fun body => .ok (math_add_pipe body))⟩

/-- The last value bound to key `p` in a sequence of bindings (the
"last write" of a left-to-right registration pass). -/
def lastAssoc {α : Type} (p : String) : List (String × α) → Option α
  | [] => none
  | (k, v) :: rest =>
      match lastAssoc p rest with
      | some e => some e
      | none => if k = p then some v else none

/-- A check whether a handler result is a mapping containing a key. -/
def objHasKey (v : JValue) (k : String) : Bool :=
  match v with
  | .obj fields => (jobjGet fields k).isSome
  | _ => false

/-- Modelled from the words of the spec, for comparison with `derivedId`:
"the id attribute of the instance if present, else the name attribute of
the instance if present, else the base filename of the unit" — attribute
presence, not Python truthiness. -/
def specDerivedId (idAttr nameAttr : Option String) (base : String) :
    String :=
  idAttr.getD (nameAttr.getD base)

/-- A pre-scan registry used to exhibit an intermediate scan state. -/
def cexPre : Registry := [("a", ⟨"m", "f", fun _ => .ok .null⟩)]

/-- A unit whose id attribute is present but equal to the empty string,
while its name attribute is `"n"`. -/
def cexEmptyIdUnit : UnitFile :=
  ⟨"f.py", .valid (some "") (some "n") (fun _ => .ok .null)⟩

/-- A registry entry whose handler returns a non-mapping value. -/
def echoEntry : PipelineEntry :=
  ⟨"pipelines.echo", "./pipelines/echo.py", fun _ => .ok (.str "hi")⟩

/-- A registry entry whose handler always raises. -/
def boomEntry : PipelineEntry :=
  ⟨"pipelines.boom", "./pipelines/boom.py", fun _ => .exn "boom"⟩

/-- A registry whose keys are not listed in sorted order. -/
def regW : Registry :=
  [("b", ⟨"m", "f", fun _ => .ok .null⟩),
    ("a", ⟨"m", "f", fun _ => .ok .null⟩)]

theorem dictGet_insert_self {α : Type} (k : String) (v : α)
    (d : List (String × α)) : dictGet (dictInsert k v d) k = some v := by
  induction d with
  | nil => simp [dictInsert, dictGet]
  | cons p rest ih =>
      obtain ⟨k', v'⟩ := p
      by_cases h : k' = k
      · simp [dictInsert, dictGet, h]
      · simp [dictInsert, dictGet, h, ih]

theorem dictKeys_nil {α : Type} : dictKeys ([] : List (String × α)) = [] :=
  rfl

theorem dictKeys_cons {α : Type} (k : String) (v : α)
    (d : List (String × α)) : dictKeys ((k, v) :: d) = k :: dictKeys d :=
  rfl

theorem dictInsert_cons_self {α : Type} (k : String) (v v' : α)
    (d : List (String × α)) :
    dictInsert k v ((k, v') :: d) = (k, v) :: d := by
  simp [dictInsert]

theorem dictGet_insert_ne {α : Type} (k p : String) (v : α)
    (d : List (String × α)) (h : k ≠ p) :
    dictGet (dictInsert k v d) p = dictGet d p := by
  induction d with
  | nil => simp [dictInsert, dictGet, h]
  | cons q rest ih =>
      obtain ⟨k', v'⟩ := q
      by_cases hk : k' = k
      · subst hk
        simp [dictInsert, dictGet, h]
      · simp only [dictInsert, if_neg hk, dictGet, ih]

theorem mem_dictKeys_insert {α : Type} (k p : String) (v : α)
    (d : List (String × α)) :
    p ∈ dictKeys (dictInsert k v d) ↔ p = k ∨ p ∈ dictKeys d := by
  induction d with
  | nil => simp [dictInsert, dictKeys]
  | cons q rest ih =>
      obtain ⟨k', v'⟩ := q
      by_cases hk : k' = k
      · subst hk
        rw [dictInsert_cons_self, dictKeys_cons, dictKeys_cons]
        simp only [List.mem_cons]
        tauto
      · simp only [dictInsert, if_neg hk, dictKeys_cons, List.mem_cons, ih]
        tauto

theorem dictKeys_insert_nodup {α : Type} (k : String) (v : α)
    (d : List (String × α)) (h : (dictKeys d).Nodup) :
    (dictKeys (dictInsert k v d)).Nodup := by
  induction d with
  | nil => simp [dictInsert, dictKeys]
  | cons q rest ih =>
      obtain ⟨k', v'⟩ := q
      rw [dictKeys_cons, List.nodup_cons] at h
      by_cases hk : k' = k
      · subst hk
        rw [dictInsert_cons_self, dictKeys_cons, List.nodup_cons]
        exact h
      · simp only [dictInsert, if_neg hk, dictKeys_cons, List.nodup_cons]
        refine ⟨?_, ih h.2⟩
        intro hmem
        rcases (mem_dictKeys_insert k k' v rest).mp hmem with h1 | h1
        · exact hk h1
        · exact h.1 h1

theorem dictGet_mem_dictKeys {α : Type} (d : List (String × α))
    (p : String) (e : α) (h : dictGet d p = some e) : p ∈ dictKeys d := by
  induction d with
  | nil => simp [dictGet] at h
  | cons q rest ih =>
      obtain ⟨k', v'⟩ := q
      rw [dictKeys_cons, List.mem_cons]
      by_cases hk : k' = p
      · exact Or.inl hk.symm
      · rw [dictGet, if_neg hk] at h
        exact Or.inr (ih h)

theorem lastAssoc_isSome_of_mem {α : Type} (l : List (String × α))
    (p : String) (e : α) (h : (p, e) ∈ l) : (lastAssoc p l).isSome := by
  induction l with
  | nil => simp at h
  | cons q rest ih =>
      obtain ⟨k', v'⟩ := q
      rw [List.mem_cons] at h
      rcases h with h | h
      · cases h
        unfold lastAssoc
        cases hrec : lastAssoc p rest with
        | some e' => simp
        | none => simp
      · have hs := ih h
        unfold lastAssoc
        cases hrec : lastAssoc p rest with
        | some e' => simp
        | none => rw [hrec] at hs; simp at hs

theorem lastAssoc_cons {α : Type} (p k : String) (v : α)
    (rest : List (String × α)) :
    lastAssoc p ((k, v) :: rest) =
      match lastAssoc p rest with
      | some e => some e
      | none => if k = p then some v else none :=
  rfl

theorem dictGet_foldl_insert {α : Type} (l : List (String × α))
    (d : List (String × α)) (p : String) :
    dictGet (l.foldl (fun acc kv => dictInsert kv.1 kv.2 acc) d) p =
      match lastAssoc p l with
      | some e => some e
      | none => dictGet d p := by
  induction l generalizing d with
  | nil => simp [lastAssoc]
  | cons q rest ih =>
      obtain ⟨k', v'⟩ := q
      rw [List.foldl_cons, ih, lastAssoc_cons]
      cases hrec : lastAssoc p rest with
      | some e => rfl
      | none =>
          by_cases hk : k' = p
          · subst hk
            simp [dictGet_insert_self]
          · simp [dictGet_insert_ne k' p v' d hk, hk]

/-- The registry component of the scan is the fold of `unitStep`. -/
theorem discover_fst (baseDir : String) (units : List UnitFile) :
    (_discover_pipelines baseDir true units).1 =
      units.foldl (unitStep baseDir) [] := by
  unfold _discover_pipelines
  simp only [if_pos rfl]
  suffices h : ∀ (us : List UnitFile) (d : Registry) (lg : List String),
      (us.foldl (fun acc u =>
        (unitStep baseDir acc.1 u, acc.2 ++ (loadErrorLog baseDir u).toList))
        (d, lg)).1 = us.foldl (unitStep baseDir) d by
    exact h units [] []
  intro us
  induction us with
  | nil => intro d lg; rfl
  | cons u rest ih => intro d lg; exact ih _ _

/-- The log component of the scan collects exactly the load-error
warnings, in order. -/
theorem discover_snd (baseDir : String) (units : List UnitFile) :
    (_discover_pipelines baseDir true units).2 =
      units.filterMap (loadErrorLog baseDir) := by
  unfold _discover_pipelines
  simp only [if_pos rfl]
  suffices h : ∀ (us : List UnitFile) (d : Registry) (lg : List String),
      (us.foldl (fun acc u =>
        (unitStep baseDir acc.1 u, acc.2 ++ (loadErrorLog baseDir u).toList))
        (d, lg)).2 = lg ++ us.filterMap (loadErrorLog baseDir) by
    simpa using h units [] []
  intro us
  induction us with
  | nil => intro d lg; simp
  | cons u rest ih =>
      intro d lg
      rw [List.foldl_cons, ih, List.filterMap_cons]
      cases h : loadErrorLog baseDir u with
      | none => simp [h]
      | some m => simp [h]

/-- Folding `unitStep` is folding plain dict insertion over the valid
bindings. -/
theorem foldl_unitStep_eq_pairs (baseDir : String) (units : List UnitFile)
    (d : Registry) :
    units.foldl (unitStep baseDir) d =
      (units.filterMap (unitEntry baseDir)).foldl
        (fun acc kv => dictInsert kv.1 kv.2 acc) d := by
  induction units generalizing d with
  | nil => rfl
  | cons u rest ih =>
      rw [List.foldl_cons, List.filterMap_cons]
      cases h : unitEntry baseDir u with
      | none => rw [ih]; simp [unitStep, h]
      | some ke => rw [ih]; simp [unitStep, h]

theorem mem_scanl_take {α β : Type} (f : β → α → β) (b : β) (l : List α)
    (s : β) (h : s ∈ List.scanl f b l) :
    ∃ k, s = (l.take k).foldl f b := by
  induction l generalizing b with
  | nil =>
      rw [List.scanl_nil, List.mem_singleton] at h
      exact ⟨0, by simp [h]⟩
  | cons a rest ih =>
      rw [List.scanl_cons] at h
      simp only [List.singleton_append, List.mem_cons] at h
      rcases h with h | h
      · exact ⟨0, by simp [h]⟩
      · obtain ⟨k, hk⟩ := ih (f b a) h
        exact ⟨k + 1, by simpa using hk⟩

theorem foldl_mem_scanl {α β : Type} (f : β → α → β) (b : β) (l : List α) :
    l.foldl f b ∈ List.scanl f b l := by
  induction l generalizing b with
  | nil => simp
  | cons a rest ih =>
      rw [List.scanl_cons, List.foldl_cons]
      simp only [List.singleton_append, List.mem_cons]
      exact Or.inr (ih (f b a))

theorem nodup_dictKeys_foldl_unitStep (baseDir : String)
    (units : List UnitFile) (d : Registry) (h : (dictKeys d).Nodup) :
    (dictKeys (units.foldl (unitStep baseDir) d)).Nodup := by
  induction units generalizing d with
  | nil => exact h
  | cons u rest ih =>
      rw [List.foldl_cons]
      refine ih _ ?_
      unfold unitStep
      cases hu : unitEntry baseDir u with
      | none => exact h
      | some ke => exact dictKeys_insert_nodup ke.1 ke.2 d h

/-- Every branch of `math_add_pipe` returns a mapping. -/
theorem math_add_pipe_isObj (body : JObj) :
    ∃ fields, math_add_pipe body = .obj fields := by
  unfold math_add_pipe
  cases h : (jobjGet body "values").getD (.arr []) with
  | arr xs =>
      by_cases ha : xs.all pyIsNumber
      · exact ⟨[("sum", .num (pySum xs))], by simp [ha]⟩
      · exact ⟨[("error", .str "body.values must be a list of numbers")],
          by simp [ha]⟩
  | null => exact ⟨_, rfl⟩
  | bool b => exact ⟨_, rfl⟩
  | num q => exact ⟨_, rfl⟩
  | str s => exact ⟨_, rfl⟩
  | obj fs => exact ⟨_, rfl⟩

/-- C1: a request to a guarded route is accepted exactly when its
x-api-key header equals the configured secret and that secret is
non-empty; with an empty secret every request is rejected (fail-closed);
and a missing header and a wrong header value produce the same uniform
401 Unauthorized rejection.  Both credential checks (`api_dependency` of
`main.py` with its loaded secret, and `require_api_key` of
`pipelines_list.py` with its per-request `os.getenv("API_KEY", "")`
value) satisfy this. -/
theorem auth_gate_exact_match (secret : String) (env : Option String)
    (hdr : Option String) :
    (api_dependency secret hdr = .ok () ↔ hdr = some secret ∧ secret ≠ "") ∧
    (api_dependency secret hdr ≠ .ok () →
      api_dependency secret hdr = .error (401, "Unauthorized")) ∧
    (require_api_key env hdr = .ok () ↔
      hdr = some (env.getD "") ∧ env.getD "" ≠ "") ∧
    (require_api_key env hdr ≠ .ok () →
      require_api_key env hdr = .error (401, "Unauthorized")) := by
  refine ⟨?_, ?_, ?_, ?_⟩
  · cases hdr with
    | none => simp [api_dependency]
    | some k =>
        by_cases h : k = "" ∨ k ≠ secret
        · simp only [api_dependency, if_pos h]
          constructor
          · intro hc; cases hc
          · rintro ⟨hk, hs⟩
            injection hk with hk
            rcases h with h | h
            · exact absurd (hk ▸ h) hs
            · exact absurd hk h
        · push_neg at h
          simp only [api_dependency,
            if_neg (by tauto : ¬(k = "" ∨ k ≠ secret))]
          simp [h.2, h.2 ▸ h.1]
  · cases hdr with
    | none => intro _; rfl
    | some k =>
        by_cases h : k = "" ∨ k ≠ secret
        · intro _; simp only [api_dependency, if_pos h]
        · intro hne
          exact absurd (by simp only [api_dependency, if_neg h]) hne
  · by_cases h : env.getD "" = "" ∨ hdr ≠ some (env.getD "")
    · simp only [require_api_key, if_pos h]
      constructor
      · intro hc; cases hc
      · rintro ⟨hk, hs⟩
        rcases h with h | h
        · exact absurd h hs
        · exact absurd hk h
    · push_neg at h
      simp only [require_api_key,
        if_neg (by tauto : ¬(env.getD "" = "" ∨ hdr ≠ some (env.getD "")))]
      simp [h.1, h.2]
  · by_cases h : env.getD "" = "" ∨ hdr ≠ some (env.getD "")
    · intro _; simp only [require_api_key, if_pos h]
    · intro hne
      exact absurd (by simp only [require_api_key, if_neg h]) hne

/-- Witness for C1 at concrete inputs. -/
theorem auth_gate_exact_match_witness :
    api_dependency "s3cret" (some "s3cret") = .ok () ∧
    api_dependency "s3cret" (some "wrong") = .error (401, "Unauthorized") ∧
    api_dependency "s3cret" none = .error (401, "Unauthorized") ∧
    require_api_key (some "s3cret") (some "s3cret") = .ok () := by
  refine ⟨?_, ?_, ?_, ?_⟩
  · exact (auth_gate_exact_match "s3cret" none (some "s3cret")).1.mpr
      ⟨rfl, by decide⟩
  · exact (auth_gate_exact_match "s3cret" none (some "wrong")).2.1
      (fun hc => Except.noConfusion hc)
  · exact (auth_gate_exact_match "s3cret" none none).2.1
      (fun hc => Except.noConfusion hc)
  · exact (auth_gate_exact_match "s3cret" (some "s3cret")
      (some "s3cret")).2.2.1.mpr ⟨rfl, by decide⟩

/-- C2: on an authorized `POST /pipelines/{id}` whose registered handler
returns without raising, a mapping result is the 200 response body
exactly as returned, and a result of any other type is wrapped as
`{"result": value}` with status 200 (registry unchanged, exactly that
handler invoked). -/
theorem call_success_response (secret : String) (hdr : Option String)
    (reg : Registry) (pid : String) (payload : Option JObj)
    (e : PipelineEntry) (v : JValue)
    (hauth : api_dependency secret hdr = .ok ())
    (hreg : dictGet reg pid = some e)
    (hret : e.callable (payload.getD []) = .ok v) :
    gatewayStep secret reg hdr (.call pid payload) =
      ((match v with
        | .obj fields => .json 200 (.obj fields)
        | _ => .json 200 (.obj [("result", v)])),
        reg, [pid]) := by
  simp only [gatewayStep, hauth, _pipelines_call, hreg, hret]
  cases v <;> rfl

/-- Witness for C2: a non-mapping result is wrapped under "result". -/
theorem call_success_response_witness :
    gatewayStep "k" [("echo", echoEntry)] (some "k") (.call "echo" none) =
      (.json 200 (.obj [("result", .str "hi")]),
        [("echo", echoEntry)], ["echo"]) :=
  call_success_response "k" (some "k") [("echo", echoEntry)] "echo" none
    echoEntry (.str "hi") rfl rfl rfl

/-- C3: on an authorized `POST /pipelines/{id}` whose registered handler
raises, the gateway responds 500 with the string representation of the
exception as the detail, the registry is unchanged, and every subsequent
request is served exactly as before the faulting call. -/
theorem call_handler_fault (secret : String) (hdr : Option String)
    (reg : Registry) (pid : String) (payload : Option JObj)
    (e : PipelineEntry) (msg : String)
    (hauth : api_dependency secret hdr = .ok ())
    (hreg : dictGet reg pid = some e)
    (hexn : e.callable (payload.getD []) = .exn msg) :
    gatewayStep secret reg hdr (.call pid payload) =
      (.httpError 500 msg, reg, [pid]) ∧
    ∀ (hdr' : Option String) (r' : Request),
      gatewayStep secret
          (gatewayStep secret reg hdr (.call pid payload)).2.1 hdr' r' =
        gatewayStep secret reg hdr' r' := by
  have h1 : gatewayStep secret reg hdr (.call pid payload) =
      (.httpError 500 msg, reg, [pid]) := by
    simp only [gatewayStep, hauth, _pipelines_call, hreg, hexn]
  exact ⟨h1, fun hdr' r' => by rw [h1]⟩

/-- Witness for C3 at a concrete raising handler. -/
theorem call_handler_fault_witness :
    gatewayStep "k" [("boom", boomEntry)] (some "k") (.call "boom" none) =
      (.httpError 500 "boom", [("boom", boomEntry)], ["boom"]) :=
  (call_handler_fault "k" (some "k") [("boom", boomEntry)] "boom" none
    boomEntry "boom" rfl rfl rfl).1

/-- C4: an authorized `POST /pipelines/{id}` with an unregistered id
yields a 404 whose detail names the missing id, leaves the registry
unchanged, and invokes no handler (empty invocation trace). -/
theorem call_unknown_id (secret : String) (hdr : Option String)
    (reg : Registry) (pid : String) (payload : Option JObj)
    (hauth : api_dependency secret hdr = .ok ())
    (hmiss : dictGet reg pid = none) :
    gatewayStep secret reg hdr (.call pid payload) =
      (.httpError 404 ("pipeline \x27" ++ pid ++ "\x27 not found"),
        reg, []) := by
  simp only [gatewayStep, hauth, _pipelines_call, hmiss]

/-- Witness for C4 on an empty registry. -/
theorem call_unknown_id_witness :
    gatewayStep "k" [] (some "k") (.call "nope" none) =
      (.httpError 404 ("pipeline \x27nope\x27 not found"), [], []) :=
  call_unknown_id "k" (some "k") [] "nope" none rfl rfl

/-- C5 counterexample: the scan is not atomic.  With a non-empty pre-scan
registry and one valid unit, the cleared registry `[]` is one of the
observable intermediate states of `_discover_pipelines`, and it equals
neither the pre-scan map nor the post-scan map. -/
theorem scan_not_atomic_cex :
    ¬ (∀ s ∈ scanStates "./pipelines" cexPre true [mathAddUnit],
        s = cexPre ∨
        s = (_discover_pipelines "./pipelines" true [mathAddUnit]).1) := by
  intro h
  have hmem : ([] : Registry) ∈
      scanStates "./pipelines" cexPre true [mathAddUnit] := by
    have he : scanStates "./pipelines" cexPre true [mathAddUnit] =
        [cexPre, [],
          [("math_add", ⟨"pipelines.math_add", "./pipelines/math_add.py",
            fun body => .ok (math_add_pipe body)⟩)]] := rfl
    rw [he]
    simp
  rcases h [] hmem with h2 | h2
  · exact absurd h2.symm (by simp [cexPre])
  · rw [show (_discover_pipelines "./pipelines" true [mathAddUnit]).1 =
        [("math_add", ⟨"pipelines.math_add", "./pipelines/math_add.py",
          fun body => .ok (math_add_pipe body)⟩)] from rfl] at h2
    exact absurd h2.symm (by simp)

/-- C5 amended: during a scan the registry is cleared and rebuilt one
entry at a time in place, so an observer at an intermediate step sees the
pre-scan map, or the cleared registry, or a prefix rebuild of the
post-scan map (the fold of the first `k` processed files); the final
observable state is the complete post-scan map.  In the shipped design
the scan runs once at startup before any reader, so no request observes
an intermediate state. -/
theorem scan_states_characterization (baseDir : String) (pre : Registry)
    (units : List UnitFile) :
    pre ∈ scanStates baseDir pre true units ∧
    (∀ s ∈ scanStates baseDir pre true units,
      s = pre ∨
      ∃ k, s = (_discover_pipelines baseDir true (units.take k)).1) ∧
    (_discover_pipelines baseDir true units).1 ∈
      scanStates baseDir pre true units := by
  refine ⟨?_, ?_, ?_⟩
  · simp [scanStates]
  · intro s hs
    simp only [scanStates, if_true] at hs
    rcases List.mem_cons.mp hs with h | h
    · exact Or.inl h
    · obtain ⟨k, hk⟩ := mem_scanl_take (unitStep baseDir) [] units s h
      refine Or.inr ⟨k, ?_⟩
      rw [discover_fst baseDir (units.take k), hk]
  · simp only [scanStates, if_true]
    rw [discover_fst]
    exact List.mem_cons.mpr (Or.inr (foldl_mem_scanl _ [] units))

/-- Witness for the amended C5 at a concrete scan. -/
theorem scan_states_characterization_witness :
    ([] : Registry) = [] ∨ ∃ k, ([] : Registry) =
      (_discover_pipelines "./pipelines" true ([mathAddUnit].take k)).1 :=
  (scan_states_characterization "./pipelines" [] [mathAddUnit]).2.1 []
    (List.mem_cons_self _ _)

/-- C6: a unit that raises during loading, lacks the Pipeline marker
class, lacks a callable pipe, or has no usable module spec contributes no
binding (`unitEntry = none`); removing such a unit from the scanned
directory leaves the resulting registry unchanged, so its failure neither
aborts the scan nor affects any other unit; every valid unit ends up with
its derived id registered; and the scan log contains exactly the
load-error warnings, so only units that raised are logged. -/
theorem scan_isolation (baseDir : String) (us1 us2 : List UnitFile)
    (u : UnitFile) (units : List UnitFile) :
    (unitEntry baseDir u = none →
      (_discover_pipelines baseDir true (us1 ++ u :: us2)).1 =
      (_discover_pipelines baseDir true (us1 ++ us2)).1) ∧
    (∀ w ∈ units,
      ∀ (idA nameA : Option String) (pipe : JObj → HandlerOutcome),
      strEndsWith w.fname ".py" = true →
      w.behavior = .valid idA nameA pipe →
      derivedId idA nameA (strDropRight w.fname 3) ∈
        dictKeys (_discover_pipelines baseDir true units).1) ∧
    (_discover_pipelines baseDir true units).2 =
      units.filterMap (loadErrorLog baseDir) := by
  refine ⟨?_, ?_, discover_snd baseDir units⟩
  · intro hu
    rw [discover_fst, discover_fst, List.foldl_append, List.foldl_append,
      List.foldl_cons]
    have hstep : unitStep baseDir (us1.foldl (unitStep baseDir) []) u =
        us1.foldl (unitStep baseDir) [] := by
      unfold unitStep
      rw [hu]
    rw [hstep]
  · intro w hw idA nameA pipe hpy hb
    have hkey : (derivedId idA nameA (strDropRight w.fname 3),
        (⟨"pipelines." ++ strDropRight w.fname 3,
          baseDir ++ "/" ++ w.fname, pipe⟩ : PipelineEntry)) ∈
        units.filterMap (unitEntry baseDir) := by
      refine List.mem_filterMap.mpr ⟨w, hw, ?_⟩
      simp [unitEntry, hpy, hb]
    have hsome := lastAssoc_isSome_of_mem _ _ _ hkey
    rw [discover_fst, foldl_unitStep_eq_pairs]
    rw [Option.isSome_iff_exists] at hsome
    obtain ⟨e, he⟩ := hsome
    have hchar := dictGet_foldl_insert (units.filterMap (unitEntry baseDir))
      [] (derivedId idA nameA (strDropRight w.fname 3))
    rw [he] at hchar
    exact dictGet_mem_dictKeys _ _ e hchar

/-- Witness for C6: a raising unit does not disturb `math_add`, and the
valid unit is registered despite a failing neighbour. -/
theorem scan_isolation_witness :
    ((_discover_pipelines "./pipelines" true
        ([] ++ ⟨"broken.py", .raises "boom"⟩ :: [mathAddUnit])).1 =
      (_discover_pipelines "./pipelines" true ([] ++ [mathAddUnit])).1) ∧
    derivedId (some "math_add") (some "math_add")
        (strDropRight mathAddUnit.fname 3) ∈
      dictKeys (_discover_pipelines "./pipelines" true
        [⟨"broken.py", .raises "boom"⟩, mathAddUnit]).1 := by
  constructor
  · exact (scan_isolation "./pipelines" [] [mathAddUnit]
      ⟨"broken.py", .raises "boom"⟩ []).1 rfl
  · exact (scan_isolation "./pipelines" [] []
      ⟨"x", .badSpec⟩ [⟨"broken.py", .raises "boom"⟩, mathAddUnit]).2.1
      mathAddUnit (by simp) (some "math_add") (some "math_add")
      (fun body => .ok (math_add_pipe body)) (by decide) rfl

/-- C7 counterexample: the claim derives the id from the id attribute
whenever it is present, but the code uses Python truthiness
(`id or name or fname[:-3]`), so a unit whose id attribute is present but
empty is registered under its name attribute instead: for the unit with
id attribute `""` and name attribute `"n"`, the spec-derived id `""` is
not a key of the scanned registry. -/
theorem derived_id_mismatch_cex :
    ¬ (∀ (units : List UnitFile) (w : UnitFile)
        (idA nameA : Option String) (pipe : JObj → HandlerOutcome),
        w ∈ units →
        strEndsWith w.fname ".py" = true →
        w.behavior = .valid idA nameA pipe →
        specDerivedId idA nameA (strDropRight w.fname 3) ∈
          dictKeys (_discover_pipelines "./pipelines" true units).1) := by
  intro h
  have h2 := h [cexEmptyIdUnit] cexEmptyIdUnit (some "") (some "n")
    (fun _ => .ok .null) (by simp [cexEmptyIdUnit]) (by decide) rfl
  rw [show dictKeys
      (_discover_pipelines "./pipelines" true [cexEmptyIdUnit]).1 =
      ["n"] from rfl] at h2
  exact absurd h2 (by decide)

/-- C7 amended: the registry produced by a scan is the last-write-wins
fold, in directory enumeration order, of registering each valid unit
under its derived id, where the derived id is the id attribute of the
instance if present and non-empty, else the name attribute if present and
non-empty, else the base filename; lookup of any id returns exactly the
last valid binding for that id. -/
theorem registry_last_write_wins (baseDir : String) (units : List UnitFile)
    (p : String) :
    dictGet (_discover_pipelines baseDir true units).1 p =
      lastAssoc p (units.filterMap (unitEntry baseDir)) := by
  rw [discover_fst, foldl_unitStep_eq_pairs, dictGet_foldl_insert]
  cases h : lastAssoc p (units.filterMap (unitEntry baseDir)) with
  | some e => rfl
  | none => rfl

/-- C8: an authorized `GET /pipelines` returns 200 with body
`{"pipelines": ids}` where ids are exactly the registered ids sorted
ascending without duplicates; the registry is unchanged, no handler runs;
and every registry a scan produces has duplicate-free keys, so the
hypothesis holds for every reachable registry state. -/
theorem list_sorted_unique (secret : String) (hdr : Option String)
    (reg : Registry)
    (hauth : api_dependency secret hdr = .ok ())
    (hnd : (dictKeys reg).Nodup) :
    gatewayStep secret reg hdr .list =
      (.json 200 (.obj [("pipelines",
        .arr ((sortedKeys reg).map JValue.str))]), reg, []) ∧
    List.Sorted (· ≤ ·) (sortedKeys reg) ∧
    (sortedKeys reg).Nodup ∧
    (sortedKeys reg).Perm (dictKeys reg) ∧
    ∀ (baseDir : String) (units : List UnitFile),
      (dictKeys (_discover_pipelines baseDir true units).1).Nodup := by
  refine ⟨?_, ?_, ?_, ?_, ?_⟩
  · simp only [gatewayStep, hauth, _pipelines_list]
  · exact List.sorted_insertionSort (· ≤ ·) (dictKeys reg)
  · exact ((List.perm_insertionSort (· ≤ ·) (dictKeys reg)).nodup_iff).mpr
      hnd
  · exact List.perm_insertionSort (· ≤ ·) (dictKeys reg)
  · intro baseDir units
    rw [discover_fst]
    exact nodup_dictKeys_foldl_unitStep baseDir units [] (by simp [dictKeys])

/-- Witness for C8 on a registry listed out of key order. -/
theorem list_sorted_unique_witness :
    List.Sorted (· ≤ ·) (sortedKeys regW) ∧ (sortedKeys regW).Nodup := by
  have h := list_sorted_unique "k" (some "k") regW rfl (by decide)
  exact ⟨h.2.1, h.2.2.1⟩

/-- C9 counterexample: a body with no "values" entry does not produce an
error mapping; `body.get("values", [])` defaults to the empty list, so
`math_add_pipe` returns `{"sum": 0.0}` and the result has no "error"
key. -/
theorem math_add_absent_values_cex :
    math_add_pipe [] = .obj [("sum", .num 0)] ∧
    objHasKey (math_add_pipe []) "error" = false :=
  ⟨rfl, rfl⟩

/-- C9 amended: for a body whose "values" entry is a list of numbers,
`math_add_pipe` returns the mapping `{"sum": s}` with `s` the sum of the
list; an absent "values" entry defaults to the empty list, giving
`{"sum": 0.0}`; a present non-list "values" or a list containing an
element failing the `isinstance` number check yields the structured error
mapping; and the gateway delivers whatever `math_add_pipe` returns as a
200 mapping response (handler-level validation, never a 500). -/
theorem math_add_pipe_spec (body : JObj) (xs : List JValue) :
    (jobjGet body "values" = some (.arr xs) →
      (∀ x ∈ xs, pyIsNumber x = true) →
      math_add_pipe body = .obj [("sum", .num (pySum xs))]) ∧
    (jobjGet body "values" = none →
      math_add_pipe body = .obj [("sum", .num 0)]) ∧
    (∀ v, jobjGet body "values" = some v → (∀ ys, v ≠ .arr ys) →
      math_add_pipe body =
        .obj [("error", .str "body.values must be a list of numbers")]) ∧
    (jobjGet body "values" = some (.arr xs) →
      (∃ x ∈ xs, pyIsNumber x = false) →
      math_add_pipe body =
        .obj [("error", .str "body.values must be a list of numbers")]) ∧
    (∀ (secret : String) (hdr : Option String),
      api_dependency secret hdr = .ok () →
      gatewayStep secret
          (_discover_pipelines "./pipelines" true [mathAddUnit]).1 hdr
          (.call "math_add" (some body)) =
        (.json 200 (math_add_pipe body),
          (_discover_pipelines "./pipelines" true [mathAddUnit]).1,
          ["math_add"])) := by
  refine ⟨?_, ?_, ?_, ?_, ?_⟩
  · intro hv hall
    have ha : xs.all pyIsNumber = true := List.all_eq_true.mpr hall
    simp [math_add_pipe, hv, ha]
  · intro hv
    simp [math_add_pipe, hv, pySum]
  · intro v hv hne
    cases v with
    | arr ys => exact absurd rfl (hne ys)
    | null => simp [math_add_pipe, hv]
    | bool b => simp [math_add_pipe, hv]
    | num q => simp [math_add_pipe, hv]
    | str s => simp [math_add_pipe, hv]
    | obj fs => simp [math_add_pipe, hv]
  · intro hv hex
    have ha : xs.all pyIsNumber = false := by
      obtain ⟨x, hx, hfalse⟩ := hex
      rw [List.all_eq_false]
      exact ⟨x, hx, by simp [hfalse]⟩
    simp [math_add_pipe, hv, ha]
  · intro secret hdr hauth
    obtain ⟨fields, hf⟩ := math_add_pipe_isObj body
    have hget : dictGet
        (_discover_pipelines "./pipelines" true [mathAddUnit]).1
        "math_add" =
        some ⟨"pipelines.math_add", "./pipelines/math_add.py",
          fun b => .ok (math_add_pipe b)⟩ := rfl
    simp only [gatewayStep, hauth, _pipelines_call, hget, Option.getD_some]
    rw [hf]

/-- Witness for the amended C9: the scenario inputs of the spec. -/
theorem math_add_pipe_spec_witness :
    math_add_pipe [("values", .arr [.num 1, .num 2, .num 3])] =
      .obj [("sum", .num 6)] ∧
    math_add_pipe [("values", .arr [.str "x"])] =
      .obj [("error", .str "body.values must be a list of numbers")] := by
  constructor
  · have h := (math_add_pipe_spec
      [("values", .arr [.num 1, .num 2, .num 3])]
      [.num 1, .num 2, .num 3]).1 rfl (by decide)
    rw [h]
    norm_num [pySum, pyNumVal]
  · exact (math_add_pipe_spec [("values", .arr [.str "x"])]
      [.str "x"]).2.2.2.1 rfl ⟨.str "x", by simp, rfl⟩

/-- C10: with the API_KEY environment variable unset when `main.py`
loads, the dispatch routes accept exactly the requests whose x-api-key
header is the placeholder "changeme" (not fail-closed), while
`require_api_key` of `pipelines_list.py`, which reads the environment per
request with default `""`, rejects every request when the variable is
unset or empty. -/
theorem unset_env_divergence :
    (∀ hdr, api_dependency (API_KEY none) hdr = .ok () ↔
      hdr = some "changeme") ∧
    (∀ hdr, require_api_key none hdr = .error (401, "Unauthorized")) ∧
    (∀ hdr, require_api_key (some "") hdr =
      .error (401, "Unauthorized")) := by
  refine ⟨?_, ?_, ?_⟩
  · intro hdr
    cases hdr with
    | none => simp [api_dependency, API_KEY]
    | some k =>
        by_cases hk : k = "changeme"
        · subst hk; simp [api_dependency, API_KEY]
        · simp [api_dependency, API_KEY, hk]
  · intro hdr; rfl
  · intro hdr; rfl

/-- Witness for C10 at the placeholder header value. -/
theorem unset_env_divergence_witness :
    api_dependency (API_KEY none) (some "changeme") = .ok () ∧
    require_api_key none (some "changeme") = .error (401, "Unauthorized") :=
  ⟨(unset_env_divergence.1 (some "changeme")).mpr rfl,
    unset_env_divergence.2.1 (some "changeme")⟩

end OWP
